import Mathlib

/-!
Verification of the presence-aware XMPP message relay bot (`main.py`).

The development shallowly embeds the bot's in-memory state and handlers:
  * `JID` models `pyxmpp2.jid.JID` (local part, domain, optional resource);
  * Python dictionaries are modelled as insertion-ordered association lists
    (`alookup` / `ainsert` / `aerase`), and `defaultdict(dict)` access is
    modelled by `ddGet`, which inserts an empty bucket for a missing key
    exactly as Python's `defaultdict.__getitem__` does;
  * the presence store `ChatBot.presence` is `Store`, a two-level map from
    bare JID to resource to presence record;
  * the handlers `handle_presence_available`, `handle_presence_unavailable`,
    `get_online_users`, `get_name`, `update_roster` and `handle_message`
    are translated function by function; a handler that would raise an
    uncaught Python exception is modelled as returning `none`.
-/

set_option autoImplicit false

namespace ChatBot

/-- Lookup in an insertion-ordered association list: the value of the first
pair whose key equals `k` (Python `d[k]` read). -/
def alookup {α β : Type} [DecidableEq α] (k : α) : List (α × β) → Option β
  | [] => none
  | (k1, v) :: t => if k1 = k then some v else alookup k t

/-- Update in an insertion-ordered association list, with Python `dict`
semantics: an existing key keeps its position and gets the new value, a new
key is appended at the end (`d[k] = v`). -/
def ainsert {α β : Type} [DecidableEq α] (k : α) (v : β) : List (α × β) → List (α × β)
  | [] => [(k, v)]
  | (k1, v1) :: t => if k1 = k then (k, v) :: t else (k1, v1) :: ainsert k v t

/-- Removal from an association list (`del d[k]` after a successful
membership check). -/
def aerase {α β : Type} [DecidableEq α] (k : α) (l : List (α × β)) : List (α × β) :=
  l.filter (fun p => !(p.1 = k : Bool))

/-- `pyxmpp2.jid.JID`: local part, domain, optional resource. The bot only
ever builds JIDs with a local part, so the local part is a plain string. -/
structure JID where
  localpart : String
  domain : String
  resource : Option String
deriving DecidableEq

/-- `JID.bare()`: the same identity with the resource dropped. -/
def JID.bare (j : JID) : JID := ⟨j.localpart, j.domain, none⟩

/-- One presence record: the value stored at `presence[bare][resource]` by
`handle_presence_available` (`show`, `status`, `priority` of the stanza). -/
structure PresRec where
  pshow : Option String
  status : Option String
  priority : Int
deriving DecidableEq

/-- One bucket of the presence store: the inner `dict` mapping a resource
(Python may use `None` as key, hence `Option String`) to its record. -/
abbrev Bucket := List (Option String × PresRec)

/-- `ChatBot.presence`, a `defaultdict(dict)` keyed by bare JID. -/
abbrev Store := List (JID × Bucket)

/-- `defaultdict.__getitem__`: return the bucket for `b`; when `b` is absent,
insert a fresh empty bucket for it (this mutation is part of Python's
`defaultdict` semantics and is observable). -/
def ddGet (st : Store) (b : JID) : Bucket × Store :=
  match alookup b st with
  | some bucket => (bucket, st)
  | none => ([], st ++ [(b, [])])

/-- The record stored for `(b, s)`: `presence[b][s]` as a non-mutating
observation (`none` when either level misses). -/
def recordOf (st : Store) (b : JID) (s : Option String) : Option PresRec :=
  match alookup b st with
  | some bucket => alookup s bucket
  | none => none

/-- Truthiness of `presence[b]` as read by `get_online_users`: the base
identity has at least one live resource record. -/
def isPresent (st : Store) (b : JID) : Bool :=
  match alookup b st with
  | some bucket => !bucket.isEmpty
  | none => false

/-- A presence stanza as far as the bot reads it: `stanza_type`, `from_jid`,
`show`, `status`, `priority`. -/
structure PresenceStanza where
  stanza_type : Option String
  from_jid : JID
  pshow : Option String
  status : Option String
  priority : Int
deriving DecidableEq

/-- `ChatBot.handle_presence_available`: reject (return `False`, untouched
store) unless the stanza type is exactly `available` or absent; otherwise
store the stanza's record at `presence[from.bare()][from.resource]` and
return `True`. -/
def handle_presence_available (st : Store) (stz : PresenceStanza) : Bool × Store :=
  if stz.stanza_type ≠ some "available" ∧ stz.stanza_type ≠ none then
    (false, st)
  else
    let b := stz.from_jid.bare
    (true, ainsert b (ainsert stz.from_jid.resource
      ⟨stz.pshow, stz.status, stz.priority⟩ (ddGet st b).1) (ddGet st b).2)

/-- `ChatBot.handle_presence_unavailable`: `del presence[from.bare()][from.resource]`
inside `try ... except KeyError: pass`, then return `True`. The outer
`presence[from.bare()]` access goes through the `defaultdict`, so a missing
base identity acquires an empty bucket even though the `del` then fails. -/
def handle_presence_unavailable (st : Store) (stz : PresenceStanza) : Bool × Store :=
  let b := stz.from_jid.bare
  if (alookup stz.from_jid.resource (ddGet st b).1).isSome then
    (true, ainsert b (aerase stz.from_jid.resource (ddGet st b).1) (ddGet st b).2)
  else
    (true, (ddGet st b).2)

/-- Truncate to a 32-bit word (arithmetic is on `Nat` with explicit
reduction modulo `2 ^ 32`). -/
def w32 (n : Nat) : Nat := n % 4294967296

/-- Left-rotation of a 32-bit word by `c` places (`0 < c < 32`). -/
def rotl32 (x c : Nat) : Nat := w32 (x * 2 ^ c) + x / 2 ^ (32 - c)

/-- The 64 MD5 sine-derived constants (RFC 1321). -/
def md5K : List Nat :=
  [0xd76aa478, 0xe8c7b756, 0x242070db, 0xc1bdceee,
   0xf57c0faf, 0x4787c62a, 0xa8304613, 0xfd469501,
   0x698098d8, 0x8b44f7af, 0xffff5bb1, 0x895cd7be,
   0x6b901122, 0xfd987193, 0xa679438e, 0x49b40821,
   0xf61e2562, 0xc040b340, 0x265e5a51, 0xe9b6c7aa,
   0xd62f105d, 0x02441453, 0xd8a1e681, 0xe7d3fbc8,
   0x21e1cde6, 0xc33707d6, 0xf4d50d87, 0x455a14ed,
   0xa9e3e905, 0xfcefa3f8, 0x676f02d9, 0x8d2a4c8a,
   0xfffa3942, 0x8771f681, 0x6d9d6122, 0xfde5380c,
   0xa4beea44, 0x4bdecfa9, 0xf6bb4b60, 0xbebfbc70,
   0x289b7ec6, 0xeaa127fa, 0xd4ef3085, 0x04881d05,
   0xd9d4d039, 0xe6db99e5, 0x1fa27cf8, 0xc4ac5665,
   0xf4292244, 0x432aff97, 0xab9423a7, 0xfc93a039,
   0x655b59c3, 0x8f0ccc92, 0xffeff47d, 0x85845dd1,
   0x6fa87e4f, 0xfe2ce6e0, 0xa3014314, 0x4e0811a1,
   0xf7537e82, 0xbd3af235, 0x2ad7d2bb, 0xeb86d391]

/-- The per-step MD5 rotation amounts (RFC 1321). -/
def md5S : List Nat :=
  [7, 12, 17, 22, 7, 12, 17, 22, 7, 12, 17, 22, 7, 12, 17, 22,
   5, 9, 14, 20, 5, 9, 14, 20, 5, 9, 14, 20, 5, 9, 14, 20,
   4, 11, 16, 23, 4, 11, 16, 23, 4, 11, 16, 23, 4, 11, 16, 23,
   6, 10, 15, 21, 6, 10, 15, 21, 6, 10, 15, 21, 6, 10, 15, 21]

/-- The MD5 round function at step `i` (F, G, H, I of RFC 1321). -/
def md5F (i b c d : Nat) : Nat :=
  if i < 16 then (b &&& c) ||| ((b ^^^ 4294967295) &&& d)
  else if i < 32 then (d &&& b) ||| ((d ^^^ 4294967295) &&& c)
  else if i < 48 then b ^^^ c ^^^ d
  else c ^^^ (b ||| (d ^^^ 4294967295))

/-- The message-word index used at step `i` (RFC 1321). -/
def md5g (i : Nat) : Nat :=
  if i < 16 then i
  else if i < 32 then (5 * i + 1) % 16
  else if i < 48 then (3 * i + 5) % 16
  else (7 * i) % 16

/-- One MD5 step on state `(a, b, c, d)` with message words `m`. -/
def md5step (m : List Nat) (st : Nat × Nat × Nat × Nat) (i : Nat) :
    Nat × Nat × Nat × Nat :=
  let (a, b, c, d) := st
  let f := w32 (md5F i b c d + a + md5K.getD i 0 + m.getD (md5g i) 0)
  (d, w32 (b + rotl32 f (md5S.getD i 0)), b, c)

/-- A 64-bit little-endian length field, as eight bytes. -/
def le64 (n : Nat) : List Nat := (List.range 8).map (fun i => n / 2 ^ (8 * i) % 256)

/-- A 32-bit word as four little-endian bytes. -/
def le32 (n : Nat) : List Nat :=
  [n % 256, n / 256 % 256, n / 65536 % 256, n / 16777216 % 256]

/-- The sixteen little-endian 32-bit message words of one 64-byte block. -/
def md5words (block : List Nat) : List Nat :=
  (List.range 16).map (fun i =>
    block.getD (4 * i) 0 + 256 * block.getD (4 * i + 1) 0 +
    65536 * block.getD (4 * i + 2) 0 + 16777216 * block.getD (4 * i + 3) 0)

/-- MD5 of a byte sequence (RFC 1321), as the sixteen digest bytes.
Models Python's `hashlib.md5(...).digest()`. -/
def md5 (msg : List Nat) : List Nat :=
  let padded := msg ++ [128] ++
    List.replicate ((56 - (msg.length + 1) % 64) % 64) 0 ++
    le64 (8 * msg.length % 2 ^ 64)
  let final := (List.range (padded.length / 64)).foldl (fun st i =>
      let m := md5words ((padded.drop (64 * i)).take 64)
      let stepped := (List.range 64).foldl (md5step m) st
      (w32 (st.1 + stepped.1), w32 (st.2.1 + stepped.2.1),
       w32 (st.2.2.1 + stepped.2.2.1), w32 (st.2.2.2 + stepped.2.2.2)))
    (0x67452301, 0xefcdab89, 0x98badcfe, 0x10325476)
  le32 final.1 ++ le32 final.2.1 ++ le32 final.2.2.1 ++ le32 final.2.2.2

/-- One lowercase hexadecimal digit. -/
def hexdigit (n : Nat) : Char :=
  if n < 10 then Char.ofNat (48 + n) else Char.ofNat (87 + n)

/-- Lowercase hex rendering of a byte sequence; `md5hex` below models
Python's `hexdigest()`. -/
def bytesHex (l : List Nat) : String :=
  String.mk (l.foldr (fun b acc => hexdigit (b / 16) :: hexdigit (b % 16) :: acc) [])

/-- `hashlib.md5(bytes).hexdigest()`. -/
def md5hex (msg : List Nat) : String := bytesHex (md5 msg)

/-- UTF-8 encoding of one character, as bytes (Python `str.encode()`). -/
def utf8Char (c : Char) : List Nat :=
  let n := c.toNat
  if n < 128 then [n]
  else if n < 2048 then [192 + n / 64, 128 + n % 64]
  else if n < 65536 then [224 + n / 4096, 128 + n / 64 % 64, 128 + n % 64]
  else [240 + n / 262144, 128 + n / 4096 % 64, 128 + n / 64 % 64, 128 + n % 64]

/-- UTF-8 encoding of a string, as bytes (Python `str.encode()`). -/
def utf8 (s : String) : List Nat :=
  s.data.foldr (fun c acc => utf8Char c ++ acc) []

/-- Modelled from the spec: `config.salt`, the process-wide secret salt, is
external configuration (the `config` module is not part of the sources);
the spec only requires it to exist and be loaded at startup, so it is
modelled as an arbitrary fixed byte string. -/
def config_salt : List Nat := utf8 "process-wide-secret"

/-- `hashjid`: a confidential but stable rendering of a JID — MD5 of
`'<local>/<domain>'` concatenated with the salt, truncated to six hex
characters and used as a fake domain after the real local part. -/
def hashjid (jid : JID) : String :=
  let bare := jid.localpart ++ "/" ++ jid.domain
  let domain := String.mk ((md5hex (utf8 bare ++ config_salt)).data.take 6)
  jid.localpart ++ "@" ++ domain

/-- Split a character list at the first occurrence of `sep`: the part before
it, and `some` rest when `sep` occurs. -/
def splitFirst (sep : Char) : List Char → List Char × Option (List Char)
  | [] => ([], none)
  | c :: t =>
    if c = sep then ([], some t)
    else
      let (a, b) := splitFirst sep t
      (c :: a, b)

/-- `pyxmpp2.jid.JID(string)` for the well-formed `local@domain[/resource]`
shapes the bot receives: the resource is everything after the first `/`,
the local part everything before the first `@` of the remainder. (The
library's stringprep validation and local-less domain JIDs are outside the
scope of the claims and are not modelled; a string without `@` parses with
an empty local part here.) Crucially, the resource is KEPT: parsing a full
JID string does not bare it. -/
def jidFromStr (s : String) : JID :=
  let (pre, res) := splitFirst '/' s.data
  let (loc, dom) := splitFirst '@' pre
  match dom with
  | some d => ⟨String.mk loc, String.mk d, res.map String.mk⟩
  | none => ⟨"", String.mk loc, res.map String.mk⟩

/-- The whitespace characters of Python's `str.split` (ASCII range). -/
def pyIsSpace (c : Char) : Bool :=
  c = ' ' ∨ c = '\t' ∨ c = '\n' ∨ c = '\x0d' ∨ c = '\x0b' ∨ c = '\x0c'

/-- Python `s.split(None, 1)`: skip leading whitespace; the first element is
the maximal run of non-whitespace, and the second, when the string does not
end there, is everything after the following whitespace run, verbatim.
Whitespace-only input gives `[]`; a lone token gives a one-element list —
which is what makes `body.split(None, 1)[1]` raise `IndexError` on
`'-nick '`. -/
def splitNone1 (s : String) : List String :=
  let cs := s.data.dropWhile pyIsSpace
  match cs with
  | [] => []
  | _ =>
    let tok := cs.takeWhile (fun c => !pyIsSpace c)
    let rest := (cs.dropWhile (fun c => !pyIsSpace c)).dropWhile pyIsSpace
    match rest with
    | [] => [String.mk tok]
    | _ => [String.mk tok, String.mk rest]

/-- Python `s.startswith(p)`. -/
def pyStartswith (s p : String) : Bool := p.data.isPrefixOf s.data

/-- One roster item as the bot reads it: the bare JID key, the optional
display name, and the subscription state string. -/
structure RosterItem where
  jid : JID
  name : Option String
  subscription : String
deriving DecidableEq

/-- `ChatBot.roster` (the pyxmpp2 roster): an insertion-ordered collection
of items keyed by bare JID. -/
abbrev Roster := List RosterItem

/-- `self.roster[jid]`: the first item whose key equals `jid`; `none` models
the `KeyError` case. -/
def rosterFind (roster : Roster) (j : JID) : Option RosterItem :=
  roster.find? (fun e => e.jid = j)

/-- The common tail of `get_name` once the lookup key is fixed:
`self.roster[jid].name or hashjid(jid)` with `KeyError → hashjid(jid)`.
Python's `or` takes the fallback for `None` and for the empty string. -/
def get_name_key (roster : Roster) (j : JID) : String :=
  match rosterFind roster j with
  | some e =>
    match e.name with
    | some n => if n = "" then hashjid j else n
    | none => hashjid j
  | none => hashjid j

/-- The argument of `ChatBot.get_name`: a free-form string or a JID. -/
inductive NameArg where
  | str : String → NameArg
  | jid : JID → NameArg

/-- `ChatBot.get_name`: a string argument is parsed with `JID(...)` AS-IS
(no `.bare()` is applied to it), a JID argument is bared; then
`roster[jid].name or hashjid(jid)`, with a missing entry treated like a
missing name. -/
def get_name (roster : Roster) : NameArg → String
  | .str s => get_name_key roster (jidFromStr s)
  | .jid j => get_name_key roster j.bare

/-- Modelled from the spec (§4.8 Display Name Resolution), for comparison
with `get_name`: normalize the identity to the BASE identity, then return
the Contact Directory's stored name if non-empty, else the anonymizer's
pseudonym of the base identity. -/
def displayName_spec (roster : Roster) (j : JID) : String :=
  match rosterFind roster j.bare with
  | some e =>
    match e.name with
    | some n => if n = "" then hashjid j.bare else n
    | none => hashjid j.bare
  | none => hashjid j.bare

/-- `ChatBot.update_roster(jid, name)` as the Contact Directory update
contract (spec §4.2 `upsertName`): the backing
`roster_client.update_item` lives in the external protocol library, whose
round-trip through the server is collapsed to its specified effect — the
entry for the bare JID gets the new display name, a missing entry is
created (a fresh roster item starts with subscription `none`). -/
def update_roster (roster : Roster) (j : JID) (name : String) : Roster :=
  if roster.any (fun e => e.jid = j) then
    roster.map (fun e => if e.jid = j then ⟨e.jid, some name, e.subscription⟩ else e)
  else
    roster ++ [⟨j, some name, "none"⟩]

/-- The result of `get_online_users`: the returned list, the presence store
after the call (the `defaultdict` reads may have extended it), and the one
emitted log record — `logging.info('%d online buddies: %r', len(ret),
[x.jid for x in ret])` carries the count and the raw JIDs. -/
structure GouResult where
  ret : List RosterItem
  store : Store
  logCount : Nat
  logIds : List JID
deriving DecidableEq

/-- The roster iteration inside `get_online_users`: for each item, test
`x.subscription == 'both' and self.presence[x.jid]` left to right — the
`defaultdict` read happens only for `both`-subscribed items and inserts an
empty bucket when the key is missing; the item is kept when its bucket is
non-empty. -/
def gou_go (st : Store) : List RosterItem → List RosterItem × Store
  | [] => ([], st)
  | x :: xs =>
    if x.subscription = "both" then
      let st1 := (ddGet st x.jid).2
      (if (ddGet st x.jid).1.isEmpty then (gou_go st1 xs).1
       else x :: (gou_go st1 xs).1,
       (gou_go st1 xs).2)
    else
      gou_go st xs

/-- `ChatBot.get_online_users`: filter the roster to `both`-subscribed items
with a truthy presence bucket, log count and raw identity list, return the
filtered items in roster order. -/
def get_online_users (roster : Roster) (st : Store) : GouResult :=
  ⟨(gou_go st roster).1, (gou_go st roster).2,
   (gou_go st roster).1.length, (gou_go st roster).1.map (fun x => x.jid)⟩

/-- One outbound chat message produced by `ChatBot.send_message`:
destination JID and body. -/
structure Sent where
  to_jid : JID
  body : String
deriving DecidableEq

/-- A chat message stanza as far as `handle_message` reads it. -/
structure MsgStanza where
  from_jid : JID
  body : Option String
deriving DecidableEq

/-- The state and output of a `handle_message` call: the roster and presence
store afterwards and the messages sent, in order. -/
structure HMResult where
  roster : Roster
  store : Store
  sends : List Sent
deriving DecidableEq

/-- `ChatBot.send_to_all(sender, msg)`: prefix the body with
`[<display name of sender>] `, then send it to every online user except the
sender (the `get_online_users` call threads the store). -/
def send_to_all (roster : Roster) (st : Store) (sender : JID) (msg : String) :
    Store × List Sent :=
  let fullmsg := "[" ++ get_name roster (.jid sender) ++ "] " ++ msg
  let r := get_online_users roster st
  (r.store, (r.ret.filter (fun u => !(u.jid = sender : Bool))).map
    (fun u => ⟨u.jid, fullmsg⟩))

/-- `ChatBot.handle_message`. A `None` body is acknowledged and dropped;
`'ping'` answers `'pong'` to the bare sender; a body starting with
`'-nick '` runs the nickname protocol — nick from `split(None, 1)[1]`
(`none` models the uncaught `IndexError` when that index does not exist),
old name resolved BEFORE the roster update, confirmation sent to the FULL
sender JID, announcement sent unprefixed to every online user except the
bare sender; anything else is broadcast via `send_to_all`. -/
def handle_message (roster : Roster) (st : Store) (stanza : MsgStanza) :
    Option HMResult :=
  match stanza.body with
  | none => some ⟨roster, st, []⟩
  | some body =>
    let sender := stanza.from_jid
    let bare := sender.bare
    if body = "ping" then
      some ⟨roster, st, [⟨bare, "pong"⟩]⟩
    else if pyStartswith body "-nick " then
      match splitNone1 body with
      | _ :: nick :: _ =>
        let old_nick := get_name roster (.jid sender)
        let roster1 := update_roster roster bare nick
        let msg := old_nick ++ " 的昵称已更新为 " ++ nick ++ "。"
        let r := get_online_users roster1 st
        some ⟨roster1, r.store,
          ⟨sender, "昵称更新成功！"⟩ ::
            (r.ret.filter (fun u => !(u.jid = bare : Bool))).map
              (fun u => ⟨u.jid, msg⟩)⟩
      | _ => none
    else
      some ⟨roster, (send_to_all roster st bare body).1,
        (send_to_all roster st bare body).2⟩

/-- One presence-store event: a qualifying availability announcement
(`markAvailable`) or an unavailability announcement (`markUnavailable`). -/
inductive PEvent where
  | avail (jid : JID) (pshow status : Option String) (priority : Int)
  | unavail (jid : JID)
deriving DecidableEq

/-- The stanza sender of a presence event. -/
def PEvent.jid : PEvent → JID
  | .avail j _ _ _ => j
  | .unavail j => j

/-- Whether the event is an availability announcement. -/
def PEvent.isAvail : PEvent → Bool
  | .avail _ _ _ _ => true
  | .unavail _ => false

/-- The record an event leaves for its own (base, resource) slot: the
stanza's record for `markAvailable`, nothing for `markUnavailable`. -/
def touchVal : PEvent → Option PresRec
  | .avail _ sh stt pr => some ⟨sh, stt, pr⟩
  | .unavail _ => none

/-- Apply one event through the actual handlers (`handle_presence_available`
with stanza type `available`, `handle_presence_unavailable`). -/
def applyEvent (st : Store) : PEvent → Store
  | .avail j sh stt pr => (handle_presence_available st ⟨some "available", j, sh, stt, pr⟩).2
  | .unavail j => (handle_presence_unavailable st ⟨some "unavailable", j, none, none, 0⟩).2

/-- Apply a whole trace of presence events, oldest first. -/
def applyTrace (st : Store) (tr : List PEvent) : Store := tr.foldl applyEvent st

/-- The most recent event of the trace concerning the (base, resource) pair
`(b, s)`, when any. -/
def lastTouch (b : JID) (s : Option String) : List PEvent → Option PEvent
  | [] => none
  | e :: tr =>
    match lastTouch b s tr with
    | some x => some x
    | none => if e.jid.bare = b ∧ e.jid.resource = s then some e else none

/-- A resource `s` of base identity `b` is live after the trace: some
`markAvailable` for `(b, s)` has no matching subsequent `markUnavailable`
for the same pair — equivalently the last event touching `(b, s)` is an
availability announcement. -/
def liveSub (b : JID) (s : Option String) (tr : List PEvent) : Bool :=
  match lastTouch b s tr with
  | some e => e.isAvail
  | none => false

@[simp] theorem alookup_ainsert {α β : Type} [DecidableEq α] (k k1 : α) (v : β)
    (l : List (α × β)) :
    alookup k (ainsert k1 v l) = if k = k1 then some v else alookup k l := by
  induction l with
  | nil => simp [ainsert, alookup, eq_comm]
  | cons p t ih =>
    obtain ⟨k2, v2⟩ := p
    by_cases h2 : k2 = k1 <;> by_cases h3 : k2 = k <;>
      simp_all [ainsert, alookup, eq_comm]

@[simp] theorem alookup_aerase {α β : Type} [DecidableEq α] (k k1 : α)
    (l : List (α × β)) :
    alookup k (aerase k1 l) = if k = k1 then none else alookup k l := by
  induction l with
  | nil => simp [aerase, alookup]
  | cons p t ih =>
    obtain ⟨k2, v2⟩ := p
    by_cases h2 : k2 = k1
    · subst h2
      have hdrop : aerase k2 ((k2, v2) :: t) = aerase k2 t := by
        simp [aerase, List.filter_cons]
      rw [hdrop, ih]
      by_cases h : k = k2
      · simp [h]
      · rw [if_neg h, if_neg h]
        simp only [alookup]
        exact (if_neg (fun h1 : k2 = k => h h1.symm)).symm
    · have hkeep : aerase k1 ((k2, v2) :: t) = (k2, v2) :: aerase k1 t := by
        simp [aerase, List.filter_cons, h2]
      rw [hkeep]
      simp only [alookup]
      by_cases h3 : k2 = k
      · have hk1 : ¬ k = k1 := fun h => h2 (h3.trans h)
        rw [if_pos h3, if_neg hk1]
        exact (if_pos h3).symm
      · rw [if_neg h3, ih]
        by_cases h : k = k1
        · simp [h]
        · simp [h, alookup, h3]

@[simp] theorem alookup_append_single {α β : Type} [DecidableEq α] (k k1 : α)
    (v : β) (l : List (α × β)) :
    alookup k (l ++ [(k1, v)]) =
      match alookup k l with
      | some w => some w
      | none => if k1 = k then some v else none := by
  induction l with
  | nil => simp [alookup]
  | cons p t ih =>
    obtain ⟨k2, v2⟩ := p
    by_cases h : k2 = k <;> simp [alookup, h, ih]

@[simp] theorem JID.bare_bare (j : JID) : j.bare.bare = j.bare := rfl

@[simp] theorem JID.bare_localpart (j : JID) : j.bare.localpart = j.localpart := rfl

@[simp] theorem JID.bare_domain (j : JID) : j.bare.domain = j.domain := rfl

@[simp] theorem alookup_ddGet (st : Store) (b b1 : JID) :
    alookup b1 (ddGet st b).2 = if b1 = b then some (ddGet st b).1 else alookup b1 st := by
  unfold ddGet
  cases h : alookup b st with
  | some bucket =>
    simp only
    by_cases hb : b1 = b
    · subst hb; simp [h]
    · simp [hb]
  | none =>
    simp only [alookup_append_single]
    by_cases hb : b1 = b
    · subst hb; simp [h]
    · have hb2 : ¬ b = b1 := fun h2 => hb h2.symm
      cases h1 : alookup b1 st <;> simp [h1, hb, hb2]

theorem recordOf_ddGet (st : Store) (b0 b : JID) (s : Option String) :
    recordOf (ddGet st b0).2 b s = recordOf st b s := by
  unfold recordOf
  rw [alookup_ddGet]
  by_cases hb : b = b0
  · subst hb
    unfold ddGet
    cases h : alookup b st <;> simp [h, alookup]
  · simp [hb]

theorem isPresent_ddGet (st : Store) (b0 b : JID) :
    isPresent (ddGet st b0).2 b = isPresent st b := by
  unfold isPresent
  rw [alookup_ddGet]
  by_cases hb : b = b0
  · subst hb
    unfold ddGet
    cases h : alookup b st <;> simp [h]
  · simp [hb]

theorem ddGet_of_isSome (st : Store) (b : JID) (h : (alookup b st).isSome) :
    ddGet st b = ((alookup b st).getD [], st) := by
  unfold ddGet
  cases h1 : alookup b st with
  | some bucket => simp
  | none => rw [h1] at h; simp at h

@[simp] theorem alookup_ddGet_fst (st : Store) (b : JID) (s : Option String) :
    alookup s (ddGet st b).1 = recordOf st b s := by
  unfold ddGet recordOf
  cases h : alookup b st <;> simp [alookup]

theorem recordOf_ainsert (k : JID) (bucket : Bucket) (st : Store)
    (b : JID) (s : Option String) :
    recordOf (ainsert k bucket st) b s =
      if b = k then alookup s bucket else recordOf st b s := by
  unfold recordOf
  rw [alookup_ainsert]
  by_cases hb : b = k <;> simp [hb]

/-- Effect of a qualifying availability announcement on one slot: the
stanza's own slot gets the stanza's record, every other slot is unchanged. -/
theorem recordOf_available (st : Store) (stz : PresenceStanza)
    (hq : stz.stanza_type = some "available" ∨ stz.stanza_type = none)
    (b : JID) (s : Option String) :
    recordOf (handle_presence_available st stz).2 b s =
      if b = stz.from_jid.bare ∧ s = stz.from_jid.resource then
        some ⟨stz.pshow, stz.status, stz.priority⟩
      else recordOf st b s := by
  unfold handle_presence_available
  have hq1 : ¬ (stz.stanza_type ≠ some "available" ∧ stz.stanza_type ≠ none) := by
    rcases hq with h | h <;> simp [h]
  rw [if_neg hq1]
  simp only
  rw [recordOf_ainsert]
  by_cases hb : b = stz.from_jid.bare
  · rw [if_pos hb, alookup_ainsert]
    by_cases hs : s = stz.from_jid.resource
    · rw [if_pos hs, if_pos ⟨hb, hs⟩]
    · rw [if_neg hs, alookup_ddGet_fst, if_neg (fun h => hs h.2), hb]
  · rw [if_neg hb, recordOf_ddGet, if_neg (fun h => hb h.1)]

/-- Effect of an unavailability announcement on one slot: the stanza's own
slot is cleared, every other slot is unchanged (`KeyError` is swallowed). -/
theorem recordOf_unavailable (st : Store) (stz : PresenceStanza)
    (b : JID) (s : Option String) :
    recordOf (handle_presence_unavailable st stz).2 b s =
      if b = stz.from_jid.bare ∧ s = stz.from_jid.resource then none
      else recordOf st b s := by
  have hnone : (alookup stz.from_jid.resource (ddGet st stz.from_jid.bare).1) = none →
      recordOf st stz.from_jid.bare stz.from_jid.resource = none := by
    intro h
    rw [alookup_ddGet_fst] at h
    exact h
  unfold handle_presence_unavailable
  simp only
  by_cases hmem : (alookup stz.from_jid.resource (ddGet st stz.from_jid.bare).1).isSome = true
  · rw [if_pos hmem]
    simp only
    rw [recordOf_ainsert]
    by_cases hb : b = stz.from_jid.bare
    · rw [if_pos hb, alookup_aerase]
      by_cases hs : s = stz.from_jid.resource
      · rw [if_pos hs, if_pos ⟨hb, hs⟩]
      · rw [if_neg hs, alookup_ddGet_fst, if_neg (fun h => hs h.2), hb]
    · rw [if_neg hb, recordOf_ddGet, if_neg (fun h => hb h.1)]
  · rw [if_neg hmem]
    simp only
    rw [recordOf_ddGet]
    by_cases h : b = stz.from_jid.bare ∧ s = stz.from_jid.resource
    · rw [if_pos h, h.1, h.2]
      exact hnone (by simpa using hmem)
    · rw [if_neg h]

theorem JID.bare_of_resource_none (j : JID) (h : j.resource = none) : j.bare = j := by
  obtain ⟨l, d, r⟩ := j
  obtain rfl : r = none := h
  rfl

theorem isPresent_iff (st : Store) (b : JID) :
    isPresent st b = true ↔ ∃ s, (recordOf st b s).isSome = true := by
  unfold isPresent recordOf
  cases h : alookup b st with
  | none => simp
  | some bucket =>
    cases bucket with
    | nil => simp [alookup]
    | cons p t =>
      obtain ⟨s0, r0⟩ := p
      constructor
      · intro _
        exact ⟨s0, by simp [alookup]⟩
      · intro _
        simp

theorem recordOf_applyTrace (tr : List PEvent) (st : Store) (b : JID)
    (s : Option String) :
    recordOf (applyTrace st tr) b s =
      match lastTouch b s tr with
      | some e => touchVal e
      | none => recordOf st b s := by
  induction tr generalizing st with
  | nil => rfl
  | cons e tr ih =>
    have hstep : recordOf (applyEvent st e) b s =
        if b = e.jid.bare ∧ s = e.jid.resource then touchVal e
        else recordOf st b s := by
      cases e with
      | avail j sh stt pr =>
        simpa [applyEvent, PEvent.jid, touchVal] using
          recordOf_available st ⟨some "available", j, sh, stt, pr⟩ (Or.inl rfl) b s
      | unavail j =>
        simpa [applyEvent, PEvent.jid, touchVal] using
          recordOf_unavailable st ⟨some "unavailable", j, none, none, 0⟩ b s
    have hcons : lastTouch b s (e :: tr) =
        match lastTouch b s tr with
        | some x => some x
        | none => if e.jid.bare = b ∧ e.jid.resource = s then some e else none := rfl
    show recordOf (applyTrace (applyEvent st e) tr) b s = _
    rw [ih, hcons]
    cases h : lastTouch b s tr with
    | some x => simp
    | none =>
      simp only
      rw [hstep]
      by_cases hc : e.jid.bare = b ∧ e.jid.resource = s
      · rw [if_pos hc, if_pos ⟨hc.1.symm, hc.2.symm⟩]
      · rw [if_neg hc, if_neg (fun h2 => hc ⟨h2.1.symm, h2.2.symm⟩)]

theorem isSome_recordOf_trace (tr : List PEvent) (b : JID) (s : Option String) :
    (recordOf (applyTrace [] tr) b s).isSome = liveSub b s tr := by
  rw [recordOf_applyTrace]
  unfold liveSub
  cases h : lastTouch b s tr with
  | some e => cases e <;> simp [touchVal, PEvent.isAvail]
  | none => simp [recordOf, alookup]

theorem recordOf_gou_go (xs : List RosterItem) (st : Store) (b : JID)
    (s : Option String) :
    recordOf (gou_go st xs).2 b s = recordOf st b s := by
  induction xs generalizing st with
  | nil => rfl
  | cons x xs ih =>
    unfold gou_go
    by_cases h : x.subscription = "both"
    · rw [if_pos h]
      simp only
      rw [ih, recordOf_ddGet]
    · rw [if_neg h]
      exact ih st

theorem isPresent_gou_go (xs : List RosterItem) (st : Store) (b : JID) :
    isPresent (gou_go st xs).2 b = isPresent st b := by
  induction xs generalizing st with
  | nil => rfl
  | cons x xs ih =>
    unfold gou_go
    by_cases h : x.subscription = "both"
    · rw [if_pos h]
      simp only
      rw [ih, isPresent_ddGet]
    · rw [if_neg h]
      exact ih st

theorem gou_go_fst (xs : List RosterItem) (st : Store) :
    (gou_go st xs).1 =
      xs.filter (fun x => decide (x.subscription = "both") && isPresent st x.jid) := by
  induction xs generalizing st with
  | nil => rfl
  | cons x xs ih =>
    unfold gou_go
    by_cases h : x.subscription = "both"
    · rw [if_pos h]
      simp only
      have hbucket : (ddGet st x.jid).1.isEmpty = !(isPresent st x.jid) := by
        unfold ddGet isPresent
        cases h1 : alookup x.jid st <;> simp
      have hfil : xs.filter (fun y => decide (y.subscription = "both") &&
            isPresent (ddGet st x.jid).2 y.jid)
          = xs.filter (fun y => decide (y.subscription = "both") && isPresent st y.jid) :=
        List.filter_congr (fun y _ => by rw [isPresent_ddGet])
      rw [ih, hfil, List.filter_cons, hbucket]
      cases hp : isPresent st x.jid <;> simp [h, hp]
    · rw [if_neg h]
      rw [ih, List.filter_cons]
      simp [h]

theorem gou_go_snd_covered (xs : List RosterItem) (st : Store)
    (h : ∀ x ∈ xs, x.subscription = "both" → (alookup x.jid st).isSome = true) :
    (gou_go st xs).2 = st := by
  induction xs generalizing st with
  | nil => rfl
  | cons x xs ih =>
    unfold gou_go
    by_cases hx : x.subscription = "both"
    · rw [if_pos hx]
      simp only
      have hdd : (ddGet st x.jid).2 = st := by
        rw [ddGet_of_isSome st x.jid (h x (by simp) hx)]
      rw [hdd]
      exact ih st (fun y hy hsub => h y (by simp [hy]) hsub)
    · rw [if_neg hx]
      exact ih st (fun y hy hsub => h y (by simp [hy]) hsub)

theorem find_map_update (t : Roster) (j : JID) (n : String)
    (h : t.any (fun e => e.jid = j) = true) :
    ∃ sub, rosterFind
      (t.map (fun e => if e.jid = j then ⟨e.jid, some n, e.subscription⟩ else e)) j
      = some ⟨j, some n, sub⟩ := by
  induction t with
  | nil => simp at h
  | cons e t ih =>
    by_cases he : e.jid = j
    · exact ⟨e.subscription, by simp [rosterFind, List.find?_cons, he]⟩
    · have ht : t.any (fun e => e.jid = j) = true := by
        simp only [List.any_cons, Bool.or_eq_true, decide_eq_true_eq] at h
        rcases h with h | h
        · exact absurd h he
        · exact h
      obtain ⟨sub, hsub⟩ := ih ht
      refine ⟨sub, ?_⟩
      simp only [List.map_cons, if_neg he, rosterFind, List.find?_cons]
      have hd : (decide (e.jid = j)) = false := by simp [he]
      rw [hd]
      exact hsub

theorem rosterFind_append_of_none (t : Roster) (j : JID) (item : RosterItem)
    (h : t.any (fun e => e.jid = j) = false) :
    rosterFind (t ++ [item]) j = rosterFind [item] j := by
  induction t with
  | nil => rfl
  | cons e t ih =>
    simp only [List.any_cons, Bool.or_eq_false_iff] at h
    simp only [List.cons_append, rosterFind, List.find?_cons]
    rw [h.1]
    exact ih h.2

theorem get_name_key_update (roster : Roster) (j : JID) (n : String) (hn : n ≠ "") :
    get_name_key (update_roster roster j n) j = n := by
  unfold update_roster
  by_cases h : roster.any (fun e => e.jid = j) = true
  · rw [if_pos h]
    obtain ⟨sub, hsub⟩ := find_map_update roster j n h
    unfold get_name_key
    rw [hsub]
    simp [hn]
  · rw [if_neg h]
    unfold get_name_key
    rw [rosterFind_append_of_none roster j _ (by simpa using h)]
    simp [rosterFind, List.find?_cons, hn]

theorem hm_ping (roster : Roster) (st : Store) (sender : JID) :
    handle_message roster st ⟨sender, some "ping"⟩ =
      some ⟨roster, st, [⟨sender.bare, "pong"⟩]⟩ := rfl

theorem hm_nick_eq (roster : Roster) (st : Store) (sender : JID)
    (body tok nick : String)
    (h1 : pyStartswith body "-nick " = true)
    (h2 : splitNone1 body = [tok, nick]) :
    handle_message roster st ⟨sender, some body⟩ =
      some ⟨update_roster roster sender.bare nick,
        (get_online_users (update_roster roster sender.bare nick) st).store,
        ⟨sender, "昵称更新成功！"⟩ ::
          ((get_online_users (update_roster roster sender.bare nick) st).ret.filter
              (fun u => !decide (u.jid = sender.bare))).map
            (fun u => ⟨u.jid,
              get_name roster (.jid sender) ++ " 的昵称已更新为 " ++ nick ++ "。"⟩)⟩ := by
  have hping : body ≠ "ping" := by
    intro h
    subst h
    exact absurd h1 (by decide)
  unfold handle_message
  simp only
  rw [if_neg hping, if_pos h1, h2]

theorem hm_broadcast_eq (roster : Roster) (st : Store) (sender : JID) (body : String)
    (hb : body ≠ "ping") (hn : pyStartswith body "-nick " = false) :
    handle_message roster st ⟨sender, some body⟩ =
      some ⟨roster, (get_online_users roster st).store,
        ((get_online_users roster st).ret.filter
            (fun u => !decide (u.jid = sender.bare))).map
          (fun u => ⟨u.jid,
            "[" ++ get_name roster (.jid sender.bare) ++ "] " ++ body⟩)⟩ := by
  unfold handle_message send_to_all
  simp only
  rw [if_neg hb, hn]
  simp only [Bool.false_eq_true, if_false]

/-- C1: for every roster and every presence-event history applied from the
initial empty store through the actual handlers, `get_online_users` returns
exactly the roster entries whose subscription is exactly `both` and whose
base identity has at least one live presence record, in roster iteration
order (the result IS the order-preserving filter); and membership is
equivalent to: the entry is in the roster, `both`-subscribed, and some
resource of its base identity had a `markAvailable` with no matching
subsequent `markUnavailable`. Entries with any other subscription state are
excluded by the filter regardless of their presence records. -/
theorem C1_online_set_exact (roster : Roster) (tr : List PEvent) :
    ((get_online_users roster (applyTrace [] tr)).ret =
      roster.filter (fun x => decide (x.subscription = "both") &&
        isPresent (applyTrace [] tr) x.jid))
    ∧ ∀ x : RosterItem, x ∈ (get_online_users roster (applyTrace [] tr)).ret ↔
        (x ∈ roster ∧ x.subscription = "both" ∧ ∃ s, liveSub x.jid s tr = true) := by
  constructor
  · exact gou_go_fst roster (applyTrace [] tr)
  · intro x
    show x ∈ (gou_go (applyTrace [] tr) roster).1 ↔ _
    rw [gou_go_fst, List.mem_filter]
    simp only [Bool.and_eq_true, decide_eq_true_eq, and_assoc]
    constructor
    · rintro ⟨hmem, hsub, hpres⟩
      obtain ⟨s, hs⟩ := (isPresent_iff _ _).1 hpres
      rw [isSome_recordOf_trace] at hs
      exact ⟨hmem, hsub, s, hs⟩
    · rintro ⟨hmem, hsub, s, hs⟩
      refine ⟨hmem, hsub, (isPresent_iff _ _).2 ⟨s, ?_⟩⟩
      rwa [isSome_recordOf_trace]

/-- C10: `handle_presence_available` declines (returns `False`, store
untouched) exactly when the stanza type is neither `available` nor absent;
when the type qualifies it returns `True` and inserts or overwrites the
(base, resource) record with the stanza's show/status/priority, leaving
every other slot unchanged. -/
theorem C10_available_contract :
    (∀ (st : Store) (stz : PresenceStanza),
      stz.stanza_type ≠ some "available" → stz.stanza_type ≠ none →
        handle_presence_available st stz = (false, st))
    ∧ (∀ (st : Store) (stz : PresenceStanza),
        stz.stanza_type = some "available" ∨ stz.stanza_type = none →
        (handle_presence_available st stz).1 = true
        ∧ ∀ (b : JID) (s : Option String),
            recordOf (handle_presence_available st stz).2 b s =
              if b = stz.from_jid.bare ∧ s = stz.from_jid.resource then
                some ⟨stz.pshow, stz.status, stz.priority⟩
              else recordOf st b s) := by
  constructor
  · intro st stz ha hn
    unfold handle_presence_available
    rw [if_pos ⟨ha, hn⟩]
  · intro st stz hq
    refine ⟨?_, fun b s => recordOf_available st stz hq b s⟩
    unfold handle_presence_available
    have hq1 : ¬ (stz.stanza_type ≠ some "available" ∧ stz.stanza_type ≠ none) := by
      rcases hq with h | h <;> simp [h]
    rw [if_neg hq1]

/-- Witness for C10 at concrete inputs: a `subscribe`-typed stanza is
declined with the store returned untouched; an `available`-typed stanza is
accepted and its record is stored under (bare sender, resource). -/
theorem C10_witness :
    handle_presence_available [(⟨"bob", "example.org", none⟩, [])]
        ⟨some "subscribe", ⟨"alice", "example.org", some "r"⟩, none, none, 0⟩
      = (false, [(⟨"bob", "example.org", none⟩, [])])
    ∧ (handle_presence_available []
        ⟨some "available", ⟨"alice", "example.org", some "r"⟩, some "xa", some "busy", 5⟩).1
      = true
    ∧ recordOf (handle_presence_available []
        ⟨some "available", ⟨"alice", "example.org", some "r"⟩, some "xa", some "busy", 5⟩).2
        ⟨"alice", "example.org", none⟩ (some "r")
      = some ⟨some "xa", some "busy", 5⟩ := by
  refine ⟨C10_available_contract.1 _ _ (by decide) (by decide), ?_, ?_⟩
  · exact (C10_available_contract.2 [] _ (Or.inl rfl)).1
  · rw [(C10_available_contract.2 [] _ (Or.inl rfl)).2 ⟨"alice", "example.org", none⟩ (some "r")]
    rw [if_pos ⟨rfl, rfl⟩]

/-- C2 counterexample: the claim says a body of exactly `'-nick '` (prefix
matched, empty rest) is routed to the broadcast path without raising. On
the code, `'-nick '.split(None, 1)` is the one-element list `['-nick']`,
so `[1]` raises an uncaught `IndexError` inside the nickname branch
(modelled as `none`); the broadcast path is never reached and the handler
does not complete normally. -/
theorem C2_counterexample :
    pyStartswith "-nick " "-nick " = true
    ∧ splitNone1 "-nick " = ["-nick"]
    ∧ handle_message [⟨⟨"alice", "example.org", none⟩, none, "both"⟩] []
        ⟨⟨"alice", "example.org", some "r"⟩, some "-nick "⟩ = none := by
  refine ⟨by decide, by decide, ?_⟩
  rfl

/-- C2 amended: for every inbound chat message whose body starts with
`'-nick '` but whose remaining text after the first whitespace run is empty
or whitespace-only (`split(None, 1)` yields at most one token), the handler
takes the NICKNAME branch and raises an uncaught `IndexError` while
extracting the nickname (modelled: `handle_message` returns `none`); the
message is not routed to the broadcast path and no message is sent. -/
theorem C2_empty_nick_raises (roster : Roster) (st : Store) (sender : JID)
    (body : String)
    (h1 : pyStartswith body "-nick " = true)
    (h2 : (splitNone1 body).length ≤ 1) :
    handle_message roster st ⟨sender, some body⟩ = none := by
  have hping : body ≠ "ping" := by
    intro h
    subst h
    exact absurd h1 (by decide)
  unfold handle_message
  simp only
  rw [if_neg hping, if_pos h1]
  cases hs : splitNone1 body with
  | nil => rfl
  | cons a t =>
    cases t with
    | nil => rfl
    | cons b2 t2 =>
      rw [hs] at h2
      simp at h2

/-- Witness for C2 at a concrete input (`'-nick  '`, two trailing spaces):
the prefix matches, the split has a single token, and the handler fails. -/
theorem C2_witness :
    pyStartswith "-nick  " "-nick " = true
    ∧ (splitNone1 "-nick  ").length ≤ 1
    ∧ handle_message [] [] ⟨⟨"a", "b", none⟩, some "-nick  "⟩ = none := by
  refine ⟨by decide, by decide, ?_⟩
  exact C2_empty_nick_raises [] [] ⟨"a", "b", none⟩ "-nick  " (by decide) (by decide)

/-- C3 counterexample: the claim says `markUnavailable` for a ContactId
with no record — including a base identity the store has never seen —
leaves the presence store EQUAL to its previous value. On the code,
`self.presence` is a `defaultdict(dict)`, so `del self.presence[bare][res]`
first materialises an empty bucket for an unseen `bare`: starting from the
empty store, the store afterwards is `[(bare, [])] ≠ []`. -/
theorem C3_counterexample :
    (handle_presence_unavailable []
        ⟨some "unavailable", ⟨"alice", "example.org", some "r"⟩, none, none, 0⟩).2
      = [(⟨"alice", "example.org", none⟩, [])]
    ∧ (handle_presence_unavailable []
        ⟨some "unavailable", ⟨"alice", "example.org", some "r"⟩, none, none, 0⟩).2
      ≠ ([] : Store) := by
  exact ⟨rfl, by decide⟩

/-- C3 amended: `markUnavailable` on a ContactId with no record completes
without raising (returns `True`) and removes no record: every
(base, resource) slot and every `isPresent` value is unchanged. When the
BASE identity already has a bucket the store is exactly unchanged; when the
base identity was never seen, the only change is a fresh empty bucket
appended for it (a `defaultdict` artefact with no observable effect on
records or presence). -/
theorem C3_no_record_noop (st : Store) (stz : PresenceStanza)
    (h : recordOf st stz.from_jid.bare stz.from_jid.resource = none) :
    (handle_presence_unavailable st stz).1 = true
    ∧ (∀ (b : JID) (s : Option String),
        recordOf (handle_presence_unavailable st stz).2 b s = recordOf st b s)
    ∧ (∀ b : JID, isPresent (handle_presence_unavailable st stz).2 b = isPresent st b)
    ∧ ((alookup stz.from_jid.bare st).isSome = true →
        (handle_presence_unavailable st stz).2 = st)
    ∧ (alookup stz.from_jid.bare st = none →
        (handle_presence_unavailable st stz).2 = st ++ [(stz.from_jid.bare, [])]) := by
  have hres : handle_presence_unavailable st stz = (true, (ddGet st stz.from_jid.bare).2) := by
    unfold handle_presence_unavailable
    rw [if_neg (by simp [h])]
  refine ⟨by rw [hres], fun b s => ?_, fun b => ?_, fun hc => ?_, fun hc => ?_⟩
  · rw [hres]
    exact recordOf_ddGet st _ b s
  · rw [hres]
    exact isPresent_ddGet st _ b
  · rw [hres]
    simp only
    rw [ddGet_of_isSome st _ hc]
  · rw [hres]
    simp only
    unfold ddGet
    rw [hc]

/-- Witness for C3 at concrete inputs: `bob` has a live record, `alice` was
never seen; the unavailable stanza for `alice/r` returns `True`, leaves
every slot and every presence value unchanged, and merely appends the empty
`alice` bucket. -/
theorem C3_witness :
    recordOf [(⟨"bob", "example.org", none⟩, [(some "r", ⟨none, none, 0⟩)])]
        ⟨"alice", "example.org", none⟩ (some "r") = none
    ∧ (handle_presence_unavailable
        [(⟨"bob", "example.org", none⟩, [(some "r", ⟨none, none, 0⟩)])]
        ⟨some "unavailable", ⟨"alice", "example.org", some "r"⟩, none, none, 0⟩).1 = true
    ∧ isPresent (handle_presence_unavailable
        [(⟨"bob", "example.org", none⟩, [(some "r", ⟨none, none, 0⟩)])]
        ⟨some "unavailable", ⟨"alice", "example.org", some "r"⟩, none, none, 0⟩).2
        ⟨"bob", "example.org", none⟩
      = isPresent [(⟨"bob", "example.org", none⟩, [(some "r", ⟨none, none, 0⟩)])]
        ⟨"bob", "example.org", none⟩ := by
  refine ⟨by decide, ?_, ?_⟩
  · exact (C3_no_record_noop _ _ (by decide)).1
  · exact (C3_no_record_noop _ _ (by decide)).2.2.1 _

/-- C4 counterexample: the claim says `get_online_users` modifies neither
the roster nor the presence store. On the code, the comprehension's
`self.presence[x.jid]` is a `defaultdict` read: for a `both`-subscribed
roster entry whose base identity has no bucket it INSERTS an empty bucket,
so the store after the call differs from the store before it. -/
theorem C4_counterexample :
    (get_online_users [⟨⟨"alice", "example.org", none⟩, none, "both"⟩] []).store
      = [(⟨"alice", "example.org", none⟩, [])]
    ∧ (get_online_users [⟨⟨"alice", "example.org", none⟩, none, "both"⟩] []).store
      ≠ ([] : Store) := by
  exact ⟨rfl, by decide⟩

/-- C4 amended: `get_online_users` is observationally a pure read-through
query: it never writes the roster, and it preserves every (base, resource)
presence record and every `isPresent` value; but the `defaultdict` reads
may append empty buckets for `both`-subscribed entries whose base identity
has none, and the store is returned exactly unchanged whenever every
`both`-subscribed roster entry's base identity already has a bucket. -/
theorem C4_read_through (roster : Roster) (st : Store) :
    (∀ (b : JID) (s : Option String),
        recordOf (get_online_users roster st).store b s = recordOf st b s)
    ∧ (∀ b : JID, isPresent (get_online_users roster st).store b = isPresent st b)
    ∧ ((∀ x ∈ roster, x.subscription = "both" → (alookup x.jid st).isSome = true) →
        (get_online_users roster st).store = st) := by
  exact ⟨fun b s => recordOf_gou_go roster st b s,
    fun b => isPresent_gou_go roster st b,
    fun h => gou_go_snd_covered roster st h⟩

/-- Witness for C4 at concrete inputs: with `bob` (both-subscribed) already
holding a bucket, the call returns the store exactly unchanged, and `bob`'s
record is preserved. -/
theorem C4_witness :
    (get_online_users [⟨⟨"bob", "example.org", none⟩, none, "both"⟩]
        [(⟨"bob", "example.org", none⟩, [(some "r", ⟨none, none, 0⟩)])]).store
      = [(⟨"bob", "example.org", none⟩, [(some "r", ⟨none, none, 0⟩)])]
    ∧ recordOf (get_online_users [⟨⟨"bob", "example.org", none⟩, none, "both"⟩]
        [(⟨"bob", "example.org", none⟩, [(some "r", ⟨none, none, 0⟩)])]).store
        ⟨"bob", "example.org", none⟩ (some "r")
      = recordOf [(⟨"bob", "example.org", none⟩, [(some "r", ⟨none, none, 0⟩)])]
        ⟨"bob", "example.org", none⟩ (some "r") := by
  refine ⟨?_, ?_⟩
  · exact (C4_read_through _ _).2.2 (by decide)
  · exact (C4_read_through _ _).1 _ _

/-- C5: a `-nick <new>` request with a non-empty rest updates the sender's
directory display name to `<new>`, sends the private confirmation with the
fixed text `昵称更新成功！` to the sender, and sends ONE announcement built
from the sender's previous display name and `<new>` to every entry of
`get_online_users` except the sender's base identity; the announcement body
is sent as-is (the equation shows the body is exactly the synthesized
string, with no `[sender] ` prefix applied). -/
theorem C5_nick_protocol (roster : Roster) (st : Store) (sender : JID)
    (body tok nick : String)
    (h1 : pyStartswith body "-nick " = true)
    (h2 : splitNone1 body = [tok, nick]) :
    handle_message roster st ⟨sender, some body⟩ =
      some ⟨update_roster roster sender.bare nick,
        (get_online_users (update_roster roster sender.bare nick) st).store,
        ⟨sender, "昵称更新成功！"⟩ ::
          ((get_online_users (update_roster roster sender.bare nick) st).ret.filter
              (fun u => !decide (u.jid = sender.bare))).map
            (fun u => ⟨u.jid,
              get_name roster (.jid sender) ++ " 的昵称已更新为 " ++ nick ++ "。"⟩)⟩
    ∧ (nick ≠ "" →
        get_name (update_roster roster sender.bare nick) (.jid sender) = nick) := by
  refine ⟨hm_nick_eq roster st sender body tok nick h1 h2, fun hn => ?_⟩
  show get_name_key (update_roster roster sender.bare nick) sender.bare = nick
  exact get_name_key_update roster sender.bare nick hn

/-- Witness for C5 at concrete inputs: `alice/r` (roster name `Al`) sends
`-nick Bob` while `bob` is online and both-subscribed; her display name
becomes `Bob`, she gets the confirmation, and `bob` gets exactly the
unprefixed announcement. -/
theorem C5_witness :
    get_name (update_roster
        [⟨⟨"alice", "example.org", none⟩, some "Al", "both"⟩,
         ⟨⟨"bob", "example.org", none⟩, none, "both"⟩]
        (⟨"alice", "example.org", some "r"⟩ : JID).bare "Bob")
      (.jid ⟨"alice", "example.org", some "r"⟩) = "Bob"
    ∧ (handle_message
        [⟨⟨"alice", "example.org", none⟩, some "Al", "both"⟩,
         ⟨⟨"bob", "example.org", none⟩, none, "both"⟩]
        [(⟨"bob", "example.org", none⟩, [(some "r", ⟨none, none, 0⟩)])]
        ⟨⟨"alice", "example.org", some "r"⟩, some "-nick Bob"⟩).map
        (fun r => r.sends.map (fun m => (m.to_jid, m.body)))
      = some [(⟨"alice", "example.org", some "r"⟩, "昵称更新成功！"),
              (⟨"bob", "example.org", none⟩, "Al 的昵称已更新为 Bob。")] := by
  constructor
  · exact (C5_nick_protocol
      [⟨⟨"alice", "example.org", none⟩, some "Al", "both"⟩,
       ⟨⟨"bob", "example.org", none⟩, none, "both"⟩]
      [(⟨"bob", "example.org", none⟩, [(some "r", ⟨none, none, 0⟩)])]
      ⟨"alice", "example.org", some "r"⟩
      "-nick Bob" "-nick" "Bob" (by decide) (by decide)).2 (by decide)
  · rw [(C5_nick_protocol
      [⟨⟨"alice", "example.org", none⟩, some "Al", "both"⟩,
       ⟨⟨"bob", "example.org", none⟩, none, "both"⟩]
      [(⟨"bob", "example.org", none⟩, [(some "r", ⟨none, none, 0⟩)])]
      ⟨"alice", "example.org", some "r"⟩
      "-nick Bob" "-nick" "Bob" (by decide) (by decide)).1]
    decide

/-- C6: after the handler processes `-nick Bob` from sender `A` (the
directory update applied — `r1` is the roster the handler returned),
`get_name` resolves `A` to `Bob`, and a subsequent ordinary broadcast
relayed for `A` carries bodies prefixed `[Bob] `. -/
theorem C6_nick_roundtrip (roster : Roster) (st : Store) (A : JID) (t : String)
    (r1 : Roster) (s1 : Store) (sends1 : List Sent)
    (h : handle_message roster st ⟨A, some "-nick Bob"⟩ = some ⟨r1, s1, sends1⟩)
    (ht1 : t ≠ "ping") (ht2 : pyStartswith t "-nick " = false) :
    get_name r1 (.jid A) = "Bob"
    ∧ handle_message r1 s1 ⟨A, some t⟩ =
        some ⟨r1, (get_online_users r1 s1).store,
          ((get_online_users r1 s1).ret.filter (fun u => !decide (u.jid = A.bare))).map
            (fun u => ⟨u.jid, "[Bob] " ++ t⟩)⟩ := by
  have heq := hm_nick_eq roster st A "-nick Bob" "-nick" "Bob" (by decide) (by decide)
  rw [h] at heq
  have hr1 : r1 = update_roster roster A.bare "Bob" := by
    have := congrArg (fun o => (o.map (fun r : HMResult => r.roster)).getD []) heq
    simpa using this
  have hname : get_name r1 (.jid A) = "Bob" := by
    rw [hr1]
    show get_name_key (update_roster roster A.bare "Bob") A.bare = "Bob"
    exact get_name_key_update roster A.bare "Bob" (by decide)
  refine ⟨hname, ?_⟩
  rw [hm_broadcast_eq r1 s1 A t ht1 ht2]
  have hname2 : get_name r1 (.jid A.bare) = "Bob" := hname
  rw [hname2]
  rfl

/-- Witness for C6 at concrete inputs: after `alice/r` sends `-nick Bob`,
her name resolves to `Bob` and her broadcast of `hello` reaches `bob` as
`[Bob] hello`. -/
theorem C6_witness :
    get_name (update_roster
        [⟨⟨"alice", "example.org", none⟩, some "Al", "both"⟩,
         ⟨⟨"bob", "example.org", none⟩, none, "both"⟩]
        (⟨"alice", "example.org", some "r"⟩ : JID).bare "Bob")
      (.jid ⟨"alice", "example.org", some "r"⟩) = "Bob"
    ∧ (handle_message
        (update_roster
          [⟨⟨"alice", "example.org", none⟩, some "Al", "both"⟩,
           ⟨⟨"bob", "example.org", none⟩, none, "both"⟩]
          (⟨"alice", "example.org", some "r"⟩ : JID).bare "Bob")
        (get_online_users
          (update_roster
            [⟨⟨"alice", "example.org", none⟩, some "Al", "both"⟩,
             ⟨⟨"bob", "example.org", none⟩, none, "both"⟩]
            (⟨"alice", "example.org", some "r"⟩ : JID).bare "Bob")
          [(⟨"bob", "example.org", none⟩, [(some "r", ⟨none, none, 0⟩)])]).store
        ⟨⟨"alice", "example.org", some "r"⟩, some "hello"⟩).map
        (fun r => r.sends.map (fun m => (m.to_jid, m.body)))
      = some [(⟨"bob", "example.org", none⟩, "[Bob] hello")] := by
  have hc := C6_nick_roundtrip
    [⟨⟨"alice", "example.org", none⟩, some "Al", "both"⟩,
     ⟨⟨"bob", "example.org", none⟩, none, "both"⟩]
    [(⟨"bob", "example.org", none⟩, [(some "r", ⟨none, none, 0⟩)])]
    ⟨"alice", "example.org", some "r"⟩ "hello"
    (update_roster
      [⟨⟨"alice", "example.org", none⟩, some "Al", "both"⟩,
       ⟨⟨"bob", "example.org", none⟩, none, "both"⟩]
      (⟨"alice", "example.org", some "r"⟩ : JID).bare "Bob")
    ((get_online_users
      (update_roster
        [⟨⟨"alice", "example.org", none⟩, some "Al", "both"⟩,
         ⟨⟨"bob", "example.org", none⟩, none, "both"⟩]
        (⟨"alice", "example.org", some "r"⟩ : JID).bare "Bob")
      [(⟨"bob", "example.org", none⟩, [(some "r", ⟨none, none, 0⟩)])]).store)
    (⟨⟨"alice", "example.org", some "r"⟩, "昵称更新成功！"⟩ ::
      ((get_online_users
        (update_roster
          [⟨⟨"alice", "example.org", none⟩, some "Al", "both"⟩,
           ⟨⟨"bob", "example.org", none⟩, none, "both"⟩]
          (⟨"alice", "example.org", some "r"⟩ : JID).bare "Bob")
        [(⟨"bob", "example.org", none⟩, [(some "r", ⟨none, none, 0⟩)])]).ret.filter
          (fun u => !decide (u.jid = (⟨"alice", "example.org", some "r"⟩ : JID).bare))).map
        (fun u => ⟨u.jid,
          get_name
            [⟨⟨"alice", "example.org", none⟩, some "Al", "both"⟩,
             ⟨⟨"bob", "example.org", none⟩, none, "both"⟩]
            (.jid ⟨"alice", "example.org", some "r"⟩) ++ " 的昵称已更新为 " ++ "Bob" ++ "。"⟩))
    (hm_nick_eq
      [⟨⟨"alice", "example.org", none⟩, some "Al", "both"⟩,
       ⟨⟨"bob", "example.org", none⟩, none, "both"⟩]
      [(⟨"bob", "example.org", none⟩, [(some "r", ⟨none, none, 0⟩)])]
      ⟨"alice", "example.org", some "r"⟩
      "-nick Bob" "-nick" "Bob" (by decide) (by decide))
    (by decide) (by decide)
  refine ⟨hc.1, ?_⟩
  rw [hc.2]
  decide

/-- C7 counterexample: the claim says the private nickname confirmation is
addressed to the sender's base identity. On the code the confirmation is
sent to the FULL sender JID: for a `-nick Bob` from `alice/laptop`, the
only outbound message (the confirmation) goes to
`alice@example.org/laptop`, which differs from the bare base identity. -/
theorem C7_counterexample :
    ((handle_message [⟨⟨"alice", "example.org", none⟩, some "Al", "both"⟩] []
        ⟨⟨"alice", "example.org", some "laptop"⟩, some "-nick Bob"⟩).map
      (fun r => r.sends.map (fun m => m.to_jid)))
      = some [⟨"alice", "example.org", some "laptop"⟩]
    ∧ (⟨"alice", "example.org", some "laptop"⟩ : JID)
      ≠ (⟨"alice", "example.org", some "laptop"⟩ : JID).bare := by
  exact ⟨by decide, by decide⟩

/-- C7 amended: the `pong` reply to an exact `ping` body IS addressed to
the sender's bare base identity, but the private nickname-change
confirmation is addressed to the FULL sender JID, sub-identity included
(the announcement recipients are roster bare identities as before). -/
theorem C7_reply_addressing (roster : Roster) (st : Store) (sender : JID)
    (body tok nick : String)
    (h1 : pyStartswith body "-nick " = true)
    (h2 : splitNone1 body = [tok, nick]) :
    handle_message roster st ⟨sender, some "ping"⟩ =
      some ⟨roster, st, [⟨sender.bare, "pong"⟩]⟩
    ∧ (handle_message roster st ⟨sender, some body⟩).map (fun r => r.sends.head?)
      = some (some ⟨sender, "昵称更新成功！"⟩) := by
  refine ⟨hm_ping roster st sender, ?_⟩
  rw [hm_nick_eq roster st sender body tok nick h1 h2]
  rfl

/-- Witness for C7 at concrete inputs: `ping` from `alice/laptop` is
answered to the bare `alice@example.org`, while her `-nick Bob`
confirmation goes back to the full `alice@example.org/laptop`. -/
theorem C7_witness :
    handle_message [] [] ⟨⟨"alice", "example.org", some "laptop"⟩, some "ping"⟩
      = some ⟨[], [], [⟨⟨"alice", "example.org", none⟩, "pong"⟩]⟩
    ∧ (handle_message [] [] ⟨⟨"alice", "example.org", some "laptop"⟩, some "-nick Bob"⟩).map
        (fun r => r.sends.head?)
      = some (some ⟨⟨"alice", "example.org", some "laptop"⟩, "昵称更新成功！"⟩) := by
  have hc := C7_reply_addressing [] [] ⟨"alice", "example.org", some "laptop"⟩
    "-nick Bob" "-nick" "Bob" (by decide) (by decide)
  exact ⟨hc.1, hc.2⟩

set_option maxRecDepth 100000 in
/-- C8 counterexample: the claim says the log record lists the ANONYMIZED
identities (the `hashjid` pseudonyms). On the code the record is
`logging.info('%d online buddies: %r', len(ret), [x.jid for x in ret])` —
the raw JIDs: with `alice@example.org` online, the logged identity renders
as `alice@example.org` while her pseudonym is `alice@8e5a29` (salt as
modelled); the two differ. -/
theorem C8_counterexample :
    (get_online_users [⟨⟨"alice", "example.org", none⟩, none, "both"⟩]
        [(⟨"alice", "example.org", none⟩, [(some "r", ⟨none, none, 0⟩)])]).logIds
      = [⟨"alice", "example.org", none⟩]
    ∧ (get_online_users [⟨⟨"alice", "example.org", none⟩, none, "both"⟩]
        [(⟨"alice", "example.org", none⟩, [(some "r", ⟨none, none, 0⟩)])]).logIds.map
        (fun j => j.localpart ++ "@" ++ j.domain)
      = ["alice@example.org"]
    ∧ (get_online_users [⟨⟨"alice", "example.org", none⟩, none, "both"⟩]
        [(⟨"alice", "example.org", none⟩, [(some "r", ⟨none, none, 0⟩)])]).ret.map
        (fun x => hashjid x.jid)
      = ["alice@8e5a29"]
    ∧ ("alice@example.org" : String) ≠ "alice@8e5a29" := by
  refine ⟨by decide, by decide, by decide, by decide⟩

/-- C8 amended: every call emits exactly one log record (the model bundles
it as the `logCount`/`logIds` fields of the one result), whose count is the
number of online entries and whose identity list is the RAW (non-anonymized)
JIDs of those entries, both agreeing with the independent filter
characterization of the online set. -/
theorem C8_log_record (roster : Roster) (st : Store) :
    (get_online_users roster st).logCount
      = (roster.filter (fun x => decide (x.subscription = "both") &&
          isPresent st x.jid)).length
    ∧ (get_online_users roster st).logIds
      = (roster.filter (fun x => decide (x.subscription = "both") &&
          isPresent st x.jid)).map (fun x => x.jid) := by
  constructor
  · show (gou_go st roster).1.length = _
    rw [gou_go_fst]
  · show (gou_go st roster).1.map (fun x => x.jid) = _
    rw [gou_go_fst]

set_option maxRecDepth 100000 in
/-- C9 counterexample: the claim says `get_name` normalizes EVERY input to
the bare base identity before lookup. For the free-form string
`alice@example.org/laptop`, the code parses it with `JID(...)` but applies
no `.bare()`: the roster lookup (keyed by the bare JID) misses the entry
named `Nick`, and the pseudonym is returned instead — while the structured
JID input with the same resource IS normalized and resolves to `Nick`. -/
theorem C9_counterexample :
    get_name [⟨⟨"alice", "example.org", none⟩, some "Nick", "both"⟩]
        (.str "alice@example.org/laptop") = "alice@8e5a29"
    ∧ get_name [⟨⟨"alice", "example.org", none⟩, some "Nick", "both"⟩]
        (.str "alice@example.org/laptop") ≠ "Nick"
    ∧ get_name [⟨⟨"alice", "example.org", none⟩, some "Nick", "both"⟩]
        (.jid ⟨"alice", "example.org", some "laptop"⟩) = "Nick" := by
  refine ⟨by decide, by decide, by decide⟩

/-- C9 amended: `get_name` is total and resolves a STRUCTURED ContactId by
normalizing it to the bare base identity, satisfying the spec's
display-name contract (`displayName_spec`); a free-form string is parsed
as-is and satisfies the contract only when the parsed identity carries no
sub-identity — a string carrying one misses a bare-keyed directory and
falls back to the pseudonym (which itself ignores the sub-identity). -/
theorem C9_get_name_normalization (roster : Roster) (j : JID) (s : String) :
    get_name roster (.jid j) = displayName_spec roster j
    ∧ get_name roster (.jid j) = get_name roster (.jid j.bare)
    ∧ ((jidFromStr s).resource = none →
        get_name roster (.str s) = displayName_spec roster (jidFromStr s))
    ∧ ((∀ e ∈ roster, e.jid.resource = none) → (jidFromStr s).resource.isSome = true →
        get_name roster (.str s) = hashjid (jidFromStr s)
        ∧ hashjid (jidFromStr s) = hashjid (jidFromStr s).bare) := by
  refine ⟨rfl, rfl, fun hres => ?_, fun hall hres => ⟨?_, rfl⟩⟩
  · show get_name_key roster (jidFromStr s) = displayName_spec roster (jidFromStr s)
    have hbare : (jidFromStr s).bare = jidFromStr s :=
      JID.bare_of_resource_none (jidFromStr s) hres
    unfold displayName_spec get_name_key
    rw [hbare]
  · show get_name_key roster (jidFromStr s) = hashjid (jidFromStr s)
    have hfind : rosterFind roster (jidFromStr s) = none := by
      unfold rosterFind
      rw [List.find?_eq_none]
      intro e he
      simp only [decide_eq_true_eq]
      intro hjid
      have h1 := hall e he
      rw [hjid] at h1
      rw [h1] at hres
      cases hres
    unfold get_name_key
    rw [hfind]

/-- Witness for C9 at concrete inputs: the bare string resolves through the
directory (`Nick`), while the resourceful string on the same bare-keyed
roster falls back to the pseudonym, which coincides for full and bare. -/
theorem C9_witness :
    get_name [⟨⟨"alice", "example.org", none⟩, some "Nick", "both"⟩]
        (.str "alice@example.org")
      = displayName_spec [⟨⟨"alice", "example.org", none⟩, some "Nick", "both"⟩]
          (jidFromStr "alice@example.org")
    ∧ get_name [⟨⟨"alice", "example.org", none⟩, some "Nick", "both"⟩]
        (.str "alice@example.org/laptop")
      = hashjid (jidFromStr "alice@example.org/laptop")
    ∧ hashjid (jidFromStr "alice@example.org/laptop")
      = hashjid (jidFromStr "alice@example.org/laptop").bare := by
  have hc := C9_get_name_normalization
    [⟨⟨"alice", "example.org", none⟩, some "Nick", "both"⟩]
    ⟨"alice", "example.org", some "laptop"⟩ "alice@example.org"
  have hd := C9_get_name_normalization
    [⟨⟨"alice", "example.org", none⟩, some "Nick", "both"⟩]
    ⟨"alice", "example.org", some "laptop"⟩ "alice@example.org/laptop"
  have h4 := hd.2.2.2 (by decide) (by decide)
  exact ⟨hc.2.2.1 (by decide), h4.1, h4.2⟩

end ChatBot
